import Mathlib

/-!
Verification of `fgclassifier/baseline.py` (repository shangcaiwangtao/fsauor2018).

The file shallowly embeds the construction logic of the `Baseline` pipeline,
its `Dummy` specialization, the scoring methods of the local
`MultiOutputClassifier` subclass, and `predict_df`.  Components that live in
files outside the provided source (`fgclassifier.features.ensure_named_steps`,
`fgclassifier.features.DummyTransform`, `fgclassifier.utils.read_data`,
the `fgclassifier.classifiers` registry, `sklearn.metrics.f1_score`) are
modelled from the specification and marked as such in their doc comments.
-/

namespace Fgclassifier

/-- A pipeline component.  `transform` and `classifier` stand for concrete
component instances (identified by a tag), `dummyTransform` is the no-op
passthrough transform from `fgclassifier.features`, `multiOutput` is the
local `MultiOutputClassifier` wrapper (a subclass of sklearn's multi-output
adapter), and `withCache` records the cache handle that normalization
attaches to a transform stage. -/
inductive Component where
  | transform (id : Nat) : Component
  | dummyTransform : Component
  | classifier (id : Nat) : Component
  | multiOutput (inner : Component) : Component
  | withCache (inner : Component) (cache : Nat) : Component
deriving DecidableEq, Repr

/-- A step specification as accepted by `Baseline.__init__` and
`ensure_named_steps`: an explicit `(name, component)` pair, a bare component
instance, or a string key to be resolved against a registry. -/
inductive StepSpec where
  | named (name : String) (c : Component) : StepSpec
  | inst (c : Component) : StepSpec
  | key (k : String) : StepSpec
deriving DecidableEq, Repr

/-- Errors raised during construction.  `configurationError` models the
`ValueError` raised when both `fm` and `steps` are given (the spec calls it
`ConfigurationError`); `unknownComponentError` models the failure to resolve
a string key; `emptySteps` models the `IndexError` from `steps[-1]` on an
empty step list. -/
inductive BaselineError where
  | configurationError : BaselineError
  | unknownComponentError (key : String) : BaselineError
  | emptySteps : BaselineError
deriving DecidableEq, Repr

/-- Registry lookup: first binding of a key in a name-to-component mapping. -/
def lookupReg (k : String) : List (String × Component) → Option Component
  | [] => none
  | (n, c) :: rest => if n = k then some c else lookupReg k rest

/-- Modelled from the spec: the default stage name a bare component instance
receives during normalization (the spec only requires that every step spec
becomes a `(name, component)` pair). -/
def defaultName : Component → String
  | .transform i => "transform" ++ toString i
  | .dummyTransform => "dummytransform"
  | .classifier i => "classifier" ++ toString i
  | .multiOutput _ => "multioutputclassifier"
  | .withCache c _ => defaultName c

/-- Whether a component is a transform-like stage (the spec attaches the
cache only to resolved transform stages). -/
def isTransform : Component → Bool
  | .transform _ => true
  | .dummyTransform => true
  | .withCache c _ => isTransform c
  | _ => false

/-- Attach the optional cache handle to a transform component. -/
def attachCache (cache : Option Nat) (c : Component) : Component :=
  match cache with
  | none => c
  | some h => if isTransform c then .withCache c h else c

/-- Modelled from the spec: how `ensure_named_steps` treats one step spec.
Explicit pairs are kept, bare instances get a default name, string keys are
resolved against the `spec` mapping and fail with `UnknownComponentError`
when absent; the optional cache handle is attached to each resolved
transform stage. -/
def resolveStep (spec : List (String × Component)) (cache : Option Nat) :
    StepSpec → Except BaselineError (String × Component)
  | .named n c => .ok (n, attachCache cache c)
  | .inst c => .ok (defaultName c, attachCache cache c)
  | .key k =>
    match lookupReg k spec with
    | some c => .ok (k, attachCache cache c)
    | none => .error (.unknownComponentError k)

/-- Modelled from the spec: `fgclassifier.features.ensure_named_steps`
(the file is not part of the provided source).  Per spec 4.1 it turns each
step spec into a `(name, component)` pair via `resolveStep`, failing on the
first unresolvable string key; the input list is not mutated. -/
def ensureNamedSteps (spec : List (String × Component)) (cache : Option Nat) :
    List StepSpec → Except BaselineError (List (String × Component))
  | [] => .ok []
  | s :: rest =>
    match resolveStep spec cache s with
    | .error e => .error e
    | .ok p =>
      match ensureNamedSteps spec cache rest with
      | .error e => .error e
      | .ok l => .ok (p :: l)

/-- Whether a component is (an instance of) the local
`MultiOutputClassifier` wrapper. -/
def isMultiOutput : Component → Bool
  | .multiOutput _ => true
  | _ => false

/-- Lines 72-73 of `baseline.py`: if the last step's component is not an
instance of `MultiOutputClassifier`, replace the last step by the pair of
its original name and the wrapped component. -/
def wrapLast (steps : List (String × Component)) : List (String × Component) :=
  match steps.getLast? with
  | none => steps
  | some (n, c) =>
    if isMultiOutput c then steps
    else steps.dropLast ++ [(n, .multiOutput c)]

/-- The constructed `Baseline` object: its named pipeline steps and the
extra keyword arguments forwarded to the sklearn `Pipeline` constructor. -/
structure Baseline where
  steps : List (String × Component)
  kwargs : List (String × String)
deriving DecidableEq, Repr

/-- Line 61-62 of `baseline.py`: a string classifier that is an attribute of
the `fgclassifier.classifiers` module (modelled as the registry `reg`) is
replaced by the `(name, class)` pair; any other classifier value is kept. -/
def resolveClassifier (reg : List (String × Component)) :
    Option StepSpec → Option StepSpec
  | some (.key k) =>
    match lookupReg k reg with
    | some c => some (.named k c)
    | none => some (.key k)
  | x => x

/-- Lines 69-75 of `Baseline.__init__`: normalize the assembled step
list, wrap the last stage, and call the `Pipeline` constructor. -/
def Baseline.buildRest (steps : List StepSpec)
    (spec : List (String × Component)) (cache : Option Nat)
    (kwargs : List (String × String)) : Except BaselineError Baseline :=
  match ensureNamedSteps spec cache steps with
  | .error e => .error e
  | .ok [] => .error .emptySteps
  | .ok (p :: rest) => .ok ⟨wrapLast (p :: rest), kwargs⟩

/-- `Baseline.__init__` (lines 52-75 of `baseline.py`), with the
`fgclassifier.classifiers` module passed explicitly as the registry `reg`.
The result pairs the construction outcome with the final value of the list
object passed by the caller as `steps` (to model the in-place `append` at
line 66; when `steps` is `None` the second component is `[]`).  The Python
`steps = steps or []` rebinds an empty caller list to a fresh list, so the
caller's list is only mutated when it is non-empty. -/
def Baseline.initFull (reg : List (String × Component))
    (classifier : Option StepSpec) (fm : Option StepSpec)
    (steps0 : Option (List StepSpec)) (spec : List (String × Component))
    (cache : Option Nat) (kwargs : List (String × String)) :
    Except BaselineError Baseline × List StepSpec :=
  let callerList := steps0.getD []
  match fm with
  | some f =>
    match steps0 with
    | some _ => (.error .configurationError, callerList)
    | none =>
      let steps1 := [f]
      let c := resolveClassifier reg classifier
      let steps2 := match c with
        | some cc => steps1 ++ [cc]
        | none => steps1
      (Baseline.buildRest steps2 spec cache kwargs, callerList)
  | none =>
    let steps1 := callerList
    let c := resolveClassifier reg classifier
    let steps2 := match c with
      | some cc => steps1 ++ [cc]
      | none => steps1
    let callerAfter := if steps1 = [] then callerList else steps2
    (Baseline.buildRest steps2 spec cache kwargs, callerAfter)

/-- The construction outcome of `Baseline.__init__` alone. -/
def Baseline.init (reg : List (String × Component))
    (classifier : Option StepSpec) (fm : Option StepSpec)
    (steps0 : Option (List StepSpec)) (spec : List (String × Component))
    (cache : Option Nat) (kwargs : List (String × String)) :
    Except BaselineError Baseline :=
  (Baseline.initFull reg classifier fm steps0 spec cache kwargs).1

/-- `Baseline.classifier_name` (line 77-79): the name of the last step. -/
def Baseline.classifier_name (b : Baseline) : String :=
  ((b.steps.getLast?).getD ("", .dummyTransform)).1

/-- `Baseline.fm_name` (lines 81-87): the name of the second-to-last step
when there is more than one step, else the sentinel string. -/
def Baseline.fm_name (b : Baseline) : String :=
  if b.steps.length > 1 then
    ((b.steps[b.steps.length - 2]?).getD ("", .dummyTransform)).1
  else
    "unknown_fm"

/-- `Baseline.name` (lines 89-93). -/
def Baseline.name (b : Baseline) : String :=
  b.fm_name ++ "_" ++ b.classifier_name

/-! ### Scoring

`MultiOutputClassifier.scores` / `.score` (lines 26-40) and
`Baseline.scores` (lines 106-112).  Class labels are modelled as integers
and scores as rationals (the floating-point arithmetic of the source is
exact on the values involved). -/

/-- A class label value in a target column. -/
abbrev Label := Int

/-- Modelled from the spec: the per-class F1 term of
`sklearn.metrics.f1_score` (sklearn is an external collaborator, out of
scope of the source).  For a positive class `c`, F1 is
`2*tp / (2*tp + fp + fn)`, and `0` when that denominator is zero. -/
def f1ForClass (c : Label) (yt yp : List Label) : Rat :=
  let pairs := yt.zip yp
  let tp := pairs.countP (fun p => p.1 == c && p.2 == c)
  let fp := pairs.countP (fun p => p.2 == c && !(p.1 == c))
  let fn := pairs.countP (fun p => p.1 == c && !(p.2 == c))
  if 2 * tp + fp + fn = 0 then 0
  else (2 * tp : Rat) / ((2 * tp + fp + fn : Nat) : Rat)

/-- Modelled from the spec: `sklearn.metrics.f1_score` with
`average='macro'`: the unweighted mean of `f1ForClass` over the classes
occurring in the true or predicted labels. -/
def macroF1 (yt yp : List Label) : Rat :=
  let cs := (yt ++ yp).dedup
  if cs = [] then 0
  else (cs.map (fun c => f1ForClass c yt yp)).sum / (cs.length : Rat)

/-- A target-label table `y`: named columns of labels (pandas DataFrame
with `y.columns = ` the list of first components). -/
abbrev YTable := List (String × List Label)

/-- `y[label]`: the column of `y` with the given name (first match). -/
def colByName (y : YTable) (label : String) : List Label :=
  match y.find? (fun p => p.1 == label) with
  | some p => p.2
  | none => []

/-- `y_pred[:, i]`: column `i` of a row-major prediction matrix. -/
def predCol (m : List (List Label)) (i : Nat) : List Label :=
  m.map (fun r => r.getD i 0)

/-- A fitted `MultiOutputClassifier`: its learned state is abstracted into
its prediction function, which maps an input to a row-major matrix with one
column per target. -/
structure FittedMOC (X : Type) where
  predict : X → List (List Label)

/-- `MultiOutputClassifier.scores` (lines 26-34): predict once, then for
each `(i, label)` in `enumerate(y.columns)` compute the macro F1 between
`y[label]` and `y_pred[:, i]`. -/
def FittedMOC.scores {X : Type} (m : FittedMOC X) (x : X) (y : YTable) :
    List Rat :=
  let yPred := m.predict x
  (y.map Prod.fst).enum.map
    (fun p => macroF1 (colByName y p.2) (predCol yPred p.1))

/-- `np.mean` on a list of rationals (`np.mean` of an empty list is NaN,
which has no rational counterpart; the model returns `0` there, matching
the `0/0 = 0` convention of `Rat`). -/
def npMean (l : List Rat) : Rat := l.sum / (l.length : Rat)

/-- `MultiOutputClassifier.score` (lines 36-40): the `np.mean` of
`scores(X, y)`. -/
def FittedMOC.score {X : Type} (m : FittedMOC X) (x : X) (y : YTable) :
    Rat :=
  npMean (m.scores x y)

/-- The arithmetic mean of a sequence of values, written from the spec's
words for comparison with the source's `np.mean`. -/
def arithmeticMean (l : List Rat) : Rat := l.sum / (l.length : Rat)

/-- A fitted pipeline stage before the final classifier: its name and its
transform function (`None` stages are skipped by `Baseline.scores`). -/
structure FittedStep (X : Type) where
  name : String
  transform : Option (X → X)

/-- A fitted `Baseline` pipeline: the transform stages `self.steps[:-1]`
and the final fitted `MultiOutputClassifier`. -/
structure FittedBaseline (X : Type) where
  fmSteps : List (FittedStep X)
  finalName : String
  final : FittedMOC X

/-- Lines 108-111 of `Baseline.scores`: fold `X` through the non-`None`
transforms of all steps but the last. -/
def FittedBaseline.transformX {X : Type} (b : FittedBaseline X) (x : X) :
    X :=
  b.fmSteps.foldl
    (fun a s => match s.transform with | none => a | some t => t a) x

/-- `Baseline.scores` (lines 106-112): transform the input, then delegate
to the final step's `scores`. -/
def FittedBaseline.scores {X : Type} (b : FittedBaseline X) (x : X)
    (y : YTable) : List Rat :=
  b.final.scores (b.transformX x) y

/-! ### `predict_df` -/

/-- A pandas data frame: a row index (row order and count) and named
columns of string values. -/
structure DataFrame where
  index : List Nat
  cols : List (String × List String)
deriving DecidableEq, Repr

/-- `df[name] = vals`: replace the values of an existing column, or append
a new column. -/
def setCol (df : DataFrame) (name : String) (vals : List String) :
    DataFrame :=
  if df.cols.any (fun p => p.1 == name) then
    ⟨df.index, df.cols.map (fun p => if p.1 == name then (p.1, vals) else p)⟩
  else
    ⟨df.index, df.cols ++ [(name, vals)]⟩

/-- `df[name]`: the values of the first column with the given name. -/
def getCol (df : DataFrame) (name : String) : Option (List String) :=
  (df.cols.find? (fun p => p.1 == name)).map Prod.snd

/-- Modelled from the spec: `fgclassifier.utils.read_data` (the file is not
part of the provided source).  Per spec section 6 it separates features `X`
from the table `y` of target label columns and returns a full copy of the
original table.  `X` is modelled as the data frame itself and `y` by the
names of the target label columns. -/
def read_data (labels : List String) (df : DataFrame) :
    DataFrame × List String × DataFrame :=
  (df, labels, df)

/-- `Baseline.predict_df` (lines 95-104): read the data, blank the
`content` column, overwrite the target columns with the predictions,
optionally persist, and return the augmented table.  The result pairs the
returned table with the optionally persisted `(path, table)`. -/
def predict_df (predict : DataFrame → List (List String))
    (labels : List String) (df : DataFrame) (saveTo : Option String) :
    DataFrame × Option (String × DataFrame) :=
  let r := read_data labels df
  let x := r.1
  let yCols := r.2.1
  let df1 := setCol r.2.2 "content" (List.replicate r.2.2.index.length "")
  let preds := predict x
  let df2 := yCols.enum.foldl
    (fun acc p => setCol acc p.2 (preds.map (fun row => row.getD p.1 "")))
    df1
  (df2, saveTo.map (fun s => (s, df2)))

/-! ### The `Dummy` variant -/

/-- The keyword arguments the `Dummy` constructor accepts and discards
(lines 118-122): anything the `Baseline` constructor would take. -/
structure DummyKwargs where
  fm : Option StepSpec := none
  steps : Option (List StepSpec) := none
  spec : Option (List (String × Component)) := none
  cache : Option Nat := none
  pipelineOpts : List (String × String) := []
deriving Repr

/-- `Dummy.__init__` (lines 118-122): force the step list to the single
no-op passthrough stage and call the `Baseline` constructor with only the
classifier and that step list (default `spec`, no cache, no pipeline
options); the received keyword arguments are not forwarded.  `fm_spec` is
the module-level default registry from `fgclassifier.features`. -/
def Dummy.init (reg : List (String × Component))
    (fm_spec : List (String × Component)) (classifier : Option StepSpec)
    (kwargs : DummyKwargs) : Except BaselineError Baseline :=
  let _ := kwargs
  Baseline.init reg classifier none
    (some [.named "dummy_transform" .dummyTransform]) fm_spec none []

/-! ## Concrete instances used in scenarios and witnesses -/

/-- A fitted multi-output classifier for the concrete scoring scenario:
its prediction matrix has ten rows and two columns. -/
def scenarioMOC : FittedMOC Unit :=
  ⟨fun _ => (List.zip [0, 0, 1, 1, 1, 0, 0, 1, 1, 1]
    [0, 0, 0, 1, 1, 0, 0, 1, 1, 1]).map (fun p => [p.1, p.2])⟩

/-- The target table of the scoring scenario: label columns `topic` and
`sentiment`, chosen so the per-column macro F1 values are 0.80 and 0.60. -/
def scenarioY : YTable :=
  [("topic", [0, 0, 0, 1, 1, 0, 0, 0, 1, 1]),
   ("sentiment", [0, 0, 0, 0, 0, 1, 1, 1, 1, 1])]

/-- A small fitted pipeline used to instantiate the shape statements. -/
def exampleFB : FittedBaseline Unit :=
  ⟨[⟨"dummy_transform", none⟩], "clf", ⟨fun _ => [[1, 0], [0, 1]]⟩⟩

/-- A small target table with distinct column names. -/
def exampleY : YTable := [("topic", [1, 0]), ("sentiment", [0, 1])]

/-- A small data frame used to instantiate `predict_df`. -/
def exampleDF : DataFrame :=
  ⟨[0, 1, 2], [("content", ["a", "b", "c"]), ("label", ["x", "y", "z"])]⟩

/-! ## Helper lemmas -/

/-- A component satisfies `isMultiOutput` exactly when it is a
`multiOutput` wrapper. -/
theorem isMultiOutput_iff (c : Component) :
    isMultiOutput c = true ↔ ∃ d, c = Component.multiOutput d := by
  cases c <;> simp [isMultiOutput]

/-- The last element of `wrapLast l` keeps the name of the last element of
`l`, and its component is the original one when it was already wrapped,
else its wrapping. -/
theorem wrapLast_getLast? (l : List (String × Component)) (n : String)
    (c : Component) (h : l.getLast? = some (n, c)) :
    (wrapLast l).getLast? =
      some (n, if isMultiOutput c then c else Component.multiOutput c) := by
  unfold wrapLast
  rw [h]
  by_cases hm : isMultiOutput c = true
  · simp [hm, h]
  · simp only [Bool.not_eq_true] at hm
    simp [hm, List.getLast?_concat]

/-- A successful `buildRest` produced its steps by wrapping the nonempty
normalized list. -/
theorem buildRest_ok_shape (steps : List StepSpec)
    (spec : List (String × Component)) (cache : Option Nat)
    (kwargs : List (String × String)) (b : Baseline)
    (h : Baseline.buildRest steps spec cache kwargs = .ok b) :
    ∃ l, l ≠ [] ∧ ensureNamedSteps spec cache steps = .ok l ∧
      b = ⟨wrapLast l, kwargs⟩ := by
  unfold Baseline.buildRest at h
  cases he : ensureNamedSteps spec cache steps with
  | error e => rw [he] at h; exact absurd h (by simp)
  | ok l =>
    cases l with
    | nil => rw [he] at h; exact absurd h (by simp)
    | cons p rest =>
      rw [he] at h
      simp only [Except.ok.injEq] at h
      exact ⟨p :: rest, by simp, rfl, h.symm⟩

/-- Every successful construction goes through `buildRest`. -/
theorem init_ok_buildRest (reg : List (String × Component))
    (classifier : Option StepSpec) (fm : Option StepSpec)
    (steps0 : Option (List StepSpec)) (spec : List (String × Component))
    (cache : Option Nat) (kwargs : List (String × String)) (b : Baseline)
    (h : Baseline.init reg classifier fm steps0 spec cache kwargs =
      .ok b) :
    ∃ steps2, Baseline.buildRest steps2 spec cache kwargs =
      .ok b := by
  unfold Baseline.init Baseline.initFull at h
  cases fm with
  | some f =>
    cases steps0 with
    | some s => exact absurd h (by simp)
    | none => exact ⟨_, h⟩
  | none => exact ⟨_, h⟩

/-- `resolveClassifier` of a present classifier always yields a value. -/
theorem resolveClassifier_isSome (reg : List (String × Component))
    (c : StepSpec) : ∃ cc, resolveClassifier reg (some c) = some cc := by
  cases c with
  | named n comp => exact ⟨_, rfl⟩
  | inst comp => exact ⟨_, rfl⟩
  | key k =>
    cases hR : lookupReg k reg with
    | none => exact ⟨.key k, by simp [resolveClassifier, hR]⟩
    | some comp =>
      exact ⟨.named k comp, by simp [resolveClassifier, hR]⟩

/-- A `resolveStep` failure is an unknown-component error for a string key
absent from the mapping. -/
theorem resolveStep_error (spec : List (String × Component))
    (cache : Option Nat) (s : StepSpec) (e : BaselineError)
    (h : resolveStep spec cache s = .error e) :
    ∃ k, s = StepSpec.key k ∧ lookupReg k spec = none ∧
      e = BaselineError.unknownComponentError k := by
  cases s with
  | named n c => exact absurd h (by simp [resolveStep])
  | inst c => exact absurd h (by simp [resolveStep])
  | key k =>
    cases hR : lookupReg k spec with
    | none =>
      refine ⟨k, rfl, hR, ?_⟩
      simp [resolveStep, hR] at h
      exact h.symm
    | some c => simp [resolveStep, hR] at h

/-- Unfolding equation of `ensureNamedSteps` on a cons cell. -/
theorem ensureNamedSteps_cons (spec : List (String × Component))
    (cache : Option Nat) (s : StepSpec) (rest : List StepSpec) :
    ensureNamedSteps spec cache (s :: rest) =
      match resolveStep spec cache s with
      | .error e => .error e
      | .ok p =>
        match ensureNamedSteps spec cache rest with
        | .error e => .error e
        | .ok l => .ok (p :: l) := rfl

/-- Normalization distributes over list append, failing on the first
error. -/
theorem ensureNamedSteps_append (spec : List (String × Component))
    (cache : Option Nat) (xs ys : List StepSpec) :
    ensureNamedSteps spec cache (xs ++ ys) =
      match ensureNamedSteps spec cache xs with
      | .error e => .error e
      | .ok l =>
        match ensureNamedSteps spec cache ys with
        | .error e => .error e
        | .ok m => .ok (l ++ m) := by
  induction xs with
  | nil =>
    simp only [List.nil_append]
    cases ensureNamedSteps spec cache ys <;> rfl
  | cons s rest ih =>
    simp only [List.cons_append, ensureNamedSteps_cons]
    cases hr : resolveStep spec cache s with
    | error e => rfl
    | ok p =>
      rw [ih]
      cases ensureNamedSteps spec cache rest with
      | error e => rfl
      | ok l =>
        cases ensureNamedSteps spec cache ys with
        | error e => rfl
        | ok m => rfl

/-- Reduction of the constructor when `fm` is absent and a steps list is
given. -/
theorem initFull_none_some (reg : List (String × Component))
    (classifier : Option StepSpec) (cs : List StepSpec)
    (spec : List (String × Component)) (cache : Option Nat)
    (kwargs : List (String × String)) :
    Baseline.initFull reg classifier none (some cs) spec cache kwargs =
      (Baseline.buildRest
        (match resolveClassifier reg classifier with
          | some cc => cs ++ [cc]
          | none => cs) spec cache kwargs,
        if cs = [] then cs
        else match resolveClassifier reg classifier with
          | some cc => cs ++ [cc]
          | none => cs) := rfl

/-- `wrapLast` on a two-element list leaves the first stage alone and
wraps the second unless it is already wrapped. -/
theorem wrapLast_pair (p q : String × Component) :
    wrapLast [p, q] =
      [p, (q.1, if isMultiOutput q.2 then q.2
        else Component.multiOutput q.2)] := by
  obtain ⟨n, c⟩ := q
  by_cases hm : isMultiOutput c = true <;> simp [wrapLast, hm]

/-- A successful `buildRest` on a two-element step list resolves both
steps and wraps the pair. -/
theorem buildRest_pair_ok (fs : List (String × Component))
    (cache : Option Nat) (kw : List (String × String)) (s1 s2 : StepSpec)
    (b : Baseline)
    (h : Baseline.buildRest [s1, s2] fs cache kw = .ok b) :
    ∃ p1 p2, resolveStep fs cache s1 = .ok p1 ∧
      resolveStep fs cache s2 = .ok p2 ∧ b.steps = wrapLast [p1, p2] := by
  unfold Baseline.buildRest at h
  cases h1 : resolveStep fs cache s1 with
  | error e =>
    rw [show ensureNamedSteps fs cache [s1, s2] = .error e from by
      simp [ensureNamedSteps, h1]] at h
    exact absurd h (by simp)
  | ok p1 =>
    cases h2 : resolveStep fs cache s2 with
    | error e =>
      rw [show ensureNamedSteps fs cache [s1, s2] = .error e from by
        simp [ensureNamedSteps, h1, h2]] at h
      exact absurd h (by simp)
    | ok p2 =>
      rw [show ensureNamedSteps fs cache [s1, s2] = .ok [p1, p2] from by
        simp [ensureNamedSteps, h1, h2]] at h
      simp only [Except.ok.injEq] at h
      exact ⟨p1, p2, rfl, rfl, by rw [← h]⟩

/-- The `Dummy` constructor reduces to `buildRest` on the dummy-transform
stage followed by the resolved classifier. -/
theorem dummy_init_eq (reg fs : List (String × Component)) (c : StepSpec)
    (kw : DummyKwargs) (cc : StepSpec)
    (hcc : resolveClassifier reg (some c) = some cc) :
    Dummy.init reg fs (some c) kw =
      Baseline.buildRest
        [.named "dummy_transform" .dummyTransform, cc] fs none [] := by
  unfold Dummy.init Baseline.init
  rw [initFull_none_some, hcc]
  rfl

/-! ## Claims -/

/-- C1: every successfully constructed `Baseline` has, as the component of
its last stage, the `MultiOutputClassifier` wrapper (never a raw
classifier); wrapping is idempotent (a last component that is already the
wrapper is left untouched, so nothing is double-wrapped); and the wrap
preserves the stage's name. -/
theorem C1_final_stage_is_multioutput_adapter :
    (∀ reg classifier fm steps0 spec cache kwargs b,
        Baseline.init reg classifier fm steps0 spec cache kwargs =
          Except.ok b →
        ∃ n c, b.steps.getLast? = some (n, Component.multiOutput c)) ∧
    (∀ (l : List (String × Component)) (n : String) (c : Component),
        l.getLast? = some (n, Component.multiOutput c) → wrapLast l = l) ∧
    (∀ (l : List (String × Component)) (n : String) (c : Component),
        l.getLast? = some (n, c) →
        ∃ d, (wrapLast l).getLast? = some (n, d)) := by
  refine ⟨?_, ?_, ?_⟩
  · intro reg classifier fm steps0 spec cache kwargs b h
    obtain ⟨steps2, h2⟩ :=
      init_ok_buildRest reg classifier fm steps0 spec cache kwargs b h
    obtain ⟨l, hne, _, hb⟩ := buildRest_ok_shape _ _ _ _ _ h2
    obtain ⟨⟨n, c⟩, hl⟩ :=
      Option.isSome_iff_exists.mp (List.getLast?_isSome.mpr hne)
    have := wrapLast_getLast? l n c hl
    subst hb
    by_cases hm : isMultiOutput c = true
    · obtain ⟨d, rfl⟩ := (isMultiOutput_iff c).mp hm
      exact ⟨n, d, by simpa [hm] using this⟩
    · simp only [Bool.not_eq_true] at hm
      exact ⟨n, c, by simpa [hm] using this⟩
  · intro l n c h
    unfold wrapLast
    rw [h]
    simp [isMultiOutput]
  · intro l n c h
    have := wrapLast_getLast? l n c h
    exact ⟨_, this⟩

/-- C1 witness: constructing with a bare raw classifier and no transform
steps yields a pipeline whose single stage holds the wrapped classifier. -/
theorem C1_final_stage_is_multioutput_adapter_witness :
    ∃ n c,
      (Baseline.mk
        [("classifier0", Component.multiOutput (Component.classifier 0))]
        []).steps.getLast? = some (n, Component.multiOutput c) :=
  C1_final_stage_is_multioutput_adapter.1 [] (some (.inst (.classifier 0)))
    none none [] none []
    ⟨[("classifier0", Component.multiOutput (Component.classifier 0))], []⟩
    rfl

/-- C2: supplying both `fm` and `steps` (both not `None`) makes the
constructor raise the configuration error (`ValueError` at line 56, the
spec's `ConfigurationError`) — before any fitting, since `fit` is never
invoked during construction. -/
theorem C2_fm_and_steps_conflict (reg : List (String × Component))
    (classifier : Option StepSpec) (f : StepSpec) (ss : List StepSpec)
    (spec : List (String × Component)) (cache : Option Nat)
    (kwargs : List (String × String)) :
    Baseline.init reg classifier (some f) (some ss) spec cache kwargs =
      Except.error BaselineError.configurationError := rfl

/-- C5: the derived identity `name` is the feature-model stage name, an
underscore, and the classifier stage name; the classifier stage name is the
last stage's name; the feature-model stage name is the second-to-last
stage's name when there is more than one stage and the sentinel
`"unknown_fm"` when there is exactly one stage. -/
theorem C5_name_derivation :
    ∀ b : Baseline,
      b.name = b.fm_name ++ "_" ++ b.classifier_name ∧
      (b.steps ≠ [] →
        (b.steps.getLast?).map Prod.fst = some b.classifier_name) ∧
      (1 < b.steps.length →
        (b.steps.dropLast.getLast?).map Prod.fst = some b.fm_name) ∧
      (b.steps.length = 1 → b.fm_name = "unknown_fm") := by
  intro b
  refine ⟨rfl, ?_, ?_, ?_⟩
  · intro hne
    obtain ⟨p, hp⟩ :=
      Option.isSome_iff_exists.mp (List.getLast?_isSome.mpr hne)
    rw [hp]
    unfold Baseline.classifier_name
    rw [hp]
    rfl
  · intro hlen
    have h1 : b.steps.dropLast.getLast? =
        b.steps.dropLast[b.steps.dropLast.length - 1]? :=
      List.getLast?_eq_getElem? _
    have h2 : b.steps.dropLast.length = b.steps.length - 1 :=
      List.length_dropLast _
    have h5 : b.steps.dropLast.length - 1 = b.steps.length - 2 := by
      rw [h2]; omega
    have h3 : b.steps.dropLast[b.steps.length - 2]? =
        b.steps[b.steps.length - 2]? := by
      rw [List.dropLast_eq_take, List.getElem?_take, if_pos (by omega)]
    have hp : b.steps[b.steps.length - 2]? =
        some (b.steps.get ⟨b.steps.length - 2, by omega⟩) := by
      rw [List.getElem?_eq_getElem (by omega)]; rfl
    rw [h1, h5, h3, hp]
    unfold Baseline.fm_name
    rw [if_pos hlen, hp]
    rfl
  · intro hlen
    unfold Baseline.fm_name
    rw [if_neg (by omega)]

/-- C5 witness: the name derivation evaluated on a two-stage and on a
one-stage pipeline. -/
theorem C5_name_derivation_witness :
    ((Baseline.mk [("tfidf", .transform 0),
        ("svc", .multiOutput (.classifier 0))] []).steps ≠ [] →
      ((Baseline.mk [("tfidf", .transform 0),
        ("svc", .multiOutput (.classifier 0))] []).steps.getLast?).map
        Prod.fst = some (Baseline.mk [("tfidf", .transform 0),
        ("svc", .multiOutput (.classifier 0))] []).classifier_name) ∧
    ((Baseline.mk [("tfidf", .transform 0),
        ("svc", .multiOutput (.classifier 0))] []).steps.dropLast.getLast?).map
        Prod.fst = some (Baseline.mk [("tfidf", .transform 0),
        ("svc", .multiOutput (.classifier 0))] []).fm_name ∧
    (Baseline.mk [("svc", .multiOutput (.classifier 0))] []).fm_name =
      "unknown_fm" := by
  refine ⟨(C5_name_derivation _).2.1, ?_, ?_⟩
  · exact (C5_name_derivation
      (Baseline.mk [("tfidf", .transform 0),
        ("svc", .multiOutput (.classifier 0))] [])).2.2.1 (by decide)
  · exact (C5_name_derivation
      (Baseline.mk [("svc", .multiOutput (.classifier 0))] [])).2.2.2
      (by decide)

/-- C9 counterexample: with a non-`None` classifier and the caller-supplied
steps list `[]`, construction succeeds, yet the caller's list is still `[]`
afterwards — it did not gain the classifier as its last element, because
`steps = steps or []` rebinds an empty (falsy) list to a fresh one. -/
theorem C9_empty_caller_list_not_mutated :
    (Baseline.initFull [] (some (.inst (.classifier 0))) none (some [])
      [] none []).2 = [] ∧
    (Baseline.initFull [] (some (.inst (.classifier 0))) none (some [])
      [] none []).1 =
      Except.ok ⟨[("classifier0",
        Component.multiOutput (Component.classifier 0))], []⟩ :=
  ⟨rfl, rfl⟩

/-- C9 amended: when `fm` is not supplied, the classifier is not `None`,
and the caller-supplied steps list is non-empty, the constructor appends
the (possibly registry-resolved) classifier to that same list object in
place, so the caller's list gains it as its last element; an empty caller
list is rebound to a fresh list and is not mutated. -/
theorem C9_nonempty_caller_list_mutated :
    ∀ (reg : List (String × Component)) (c : StepSpec)
      (cs : List StepSpec) (spec : List (String × Component))
      (cache : Option Nat) (kwargs : List (String × String)),
      cs ≠ [] →
      ∃ cc, resolveClassifier reg (some c) = some cc ∧
        (Baseline.initFull reg (some c) none (some cs) spec cache
          kwargs).2 = cs ++ [cc] ∧
        ((Baseline.initFull reg (some c) none (some cs) spec cache
          kwargs).2).getLast? = some cc := by
  intro reg c cs spec cache kwargs hne
  obtain ⟨cc, hcc⟩ := resolveClassifier_isSome reg c
  refine ⟨cc, hcc, ?_, ?_⟩
  · unfold Baseline.initFull
    rw [hcc]
    simp [hne]
  · unfold Baseline.initFull
    rw [hcc]
    simp [hne, List.getLast?_concat]

/-- C9 amended witness: a one-element caller list gains the classifier. -/
theorem C9_nonempty_caller_list_mutated_witness :
    ∃ cc, resolveClassifier [] (some (.inst (.classifier 0))) = some cc ∧
      (Baseline.initFull [] (some (.inst (.classifier 0))) none
        (some [.inst (.transform 7)]) [] none []).2 =
        [.inst (.transform 7)] ++ [cc] ∧
      ((Baseline.initFull [] (some (.inst (.classifier 0))) none
        (some [.inst (.transform 7)]) [] none []).2).getLast? = some cc :=
  C9_nonempty_caller_list_mutated [] (.inst (.classifier 0))
    [.inst (.transform 7)] [] none [] (by simp)

/-- C10: all keyword arguments handed to the `Dummy` constructor are
discarded: the construction outcome is independent of them, and equals a
`Baseline` construction from only the classifier and the forced
dummy-transform step (default spec, no cache, no pipeline options). -/
theorem C10_dummy_kwargs_discarded :
    ∀ (reg fm_spec : List (String × Component)) (c : Option StepSpec)
      (k1 k2 : DummyKwargs),
      Dummy.init reg fm_spec c k1 = Dummy.init reg fm_spec c k2 ∧
      Dummy.init reg fm_spec c k1 =
        Baseline.init reg c none
          (some [.named "dummy_transform" .dummyTransform]) fm_spec none
          [] :=
  fun _ _ _ _ _ => ⟨rfl, rfl⟩

/-- C7: an unresolvable string key fails construction with
`UnknownComponentError`: (i) normalizing a step list that contains a key
absent from the mapping yields the unknown-component error of such a key;
(ii) a string classifier absent from both the classifier registry and the
step mapping makes the constructor fail with the unknown-component error
for exactly that key (assuming the caller-supplied steps themselves
resolve, so that this key is the first failure). -/
theorem C7_unknown_key_fails :
    (∀ (spec : List (String × Component)) (cache : Option Nat)
        (ss : List StepSpec),
        (∃ s ∈ ss, ∃ k, s = StepSpec.key k ∧ lookupReg k spec = none) →
        ∃ k, lookupReg k spec = none ∧
          ensureNamedSteps spec cache ss =
            .error (.unknownComponentError k)) ∧
    (∀ (reg spec : List (String × Component)) (cache : Option Nat)
        (kwargs : List (String × String)) (k : String)
        (cs : List StepSpec) (out : List (String × Component)),
        lookupReg k reg = none → lookupReg k spec = none →
        ensureNamedSteps spec cache cs = .ok out →
        Baseline.init reg (some (.key k)) none (some cs) spec cache
          kwargs = .error (.unknownComponentError k)) := by
  constructor
  · intro spec cache ss
    induction ss with
    | nil =>
      rintro ⟨s, hs, -⟩
      cases hs
    | cons s rest ih =>
      rintro ⟨s0, hs0, k0, hk0, hlk0⟩
      cases hr : resolveStep spec cache s with
      | error e =>
        obtain ⟨k, hsk, hlk, he⟩ := resolveStep_error spec cache s e hr
        exact ⟨k, hlk, by simp [ensureNamedSteps, hr, he]⟩
      | ok p =>
        rcases List.mem_cons.mp hs0 with rfl | hmem
        · subst hk0
          simp [resolveStep, hlk0] at hr
        · obtain ⟨k, hlk, herr⟩ := ih ⟨s0, hmem, k0, hk0, hlk0⟩
          exact ⟨k, hlk, by simp [ensureNamedSteps, hr, herr]⟩
  · intro reg spec cache kwargs k cs out hreg hspec hout
    have hres : resolveClassifier reg (some (.key k)) = some (.key k) :=
      by simp [resolveClassifier, hreg]
    unfold Baseline.init
    rw [initFull_none_some, hres]
    show Baseline.buildRest (cs ++ [.key k]) spec cache kwargs =
      Except.error (.unknownComponentError k)
    unfold Baseline.buildRest
    rw [ensureNamedSteps_append, hout]
    have hone : ensureNamedSteps spec cache [.key k] =
        .error (.unknownComponentError k) := by
      simp [ensureNamedSteps, resolveStep, hspec]
    rw [hone]

/-- C7 witness: the unresolvable classifier key `"svc"` with an empty
registry, empty mapping and empty caller steps fails construction. -/
theorem C7_unknown_key_fails_witness :
    Baseline.init [] (some (.key "svc")) none (some []) [] none [] =
      .error (.unknownComponentError "svc") :=
  C7_unknown_key_fails.2 [] [] none [] "svc" [] [] rfl rfl rfl

/-- C8: every successful `Dummy` construction has the no-op passthrough
transform as its feature-model stage: its second-to-last step is
`("dummy_transform", dummyTransform)` and its derived feature-model name
resolves to `"dummy_transform"`, regardless of the classifier supplied. -/
theorem C8_dummy_fm_is_dummy_transform :
    ∀ (reg fm_spec : List (String × Component)) (c : StepSpec)
      (kwargs : DummyKwargs) (b : Baseline),
      Dummy.init reg fm_spec (some c) kwargs = Except.ok b →
      b.fm_name = "dummy_transform" ∧
      b.steps.dropLast.getLast? =
        some ("dummy_transform", Component.dummyTransform) := by
  intro reg fs c kw b h
  obtain ⟨cc, hcc⟩ := resolveClassifier_isSome reg c
  rw [dummy_init_eq reg fs c kw cc hcc] at h
  obtain ⟨p1, p2, h1, h2, hsteps⟩ := buildRest_pair_ok fs none [] _ _ b h
  have hp1 : p1 = ("dummy_transform", Component.dummyTransform) := by
    have hr : resolveStep fs none
        (.named "dummy_transform" .dummyTransform) =
        .ok ("dummy_transform", Component.dummyTransform) := rfl
    rw [hr] at h1
    exact (Except.ok.inj h1).symm
  rw [hp1, wrapLast_pair] at hsteps
  constructor
  · simp [Baseline.fm_name, hsteps]
  · rw [hsteps]
    rfl

/-- C8 witness: the `Dummy` construction with a concrete raw classifier
has feature-model stage `dummy_transform`. -/
theorem C8_dummy_fm_is_dummy_transform_witness :
    (Baseline.mk [("dummy_transform", Component.dummyTransform),
      ("classifier3", Component.multiOutput (Component.classifier 3))]
      []).fm_name = "dummy_transform" ∧
    (Baseline.mk [("dummy_transform", Component.dummyTransform),
      ("classifier3", Component.multiOutput (Component.classifier 3))]
      []).steps.dropLast.getLast? =
      some ("dummy_transform", Component.dummyTransform) :=
  C8_dummy_fm_is_dummy_transform [] [] (.inst (.classifier 3)) {} _ rfl

/-! ## Scoring lemmas -/

/-- Evaluation form of `f1ForClass` under known counts. -/
theorem f1ForClass_eval (c : Label) (yt yp : List Label) (tp fp fn : Nat)
    (htp : (yt.zip yp).countP (fun p => p.1 == c && p.2 == c) = tp)
    (hfp : (yt.zip yp).countP (fun p => p.2 == c && !(p.1 == c)) = fp)
    (hfn : (yt.zip yp).countP (fun p => p.1 == c && !(p.2 == c)) = fn) :
    f1ForClass c yt yp =
      if 2 * tp + fp + fn = 0 then 0
      else (2 * tp : Rat) / ((2 * tp + fp + fn : Nat) : Rat) := by
  simp only [f1ForClass]
  rw [htp, hfp, hfn]

/-- Evaluation form of `macroF1` under a known class list. -/
theorem macroF1_eval (yt yp : List Label) (cs : List Label)
    (hcs : (yt ++ yp).dedup = cs) :
    macroF1 yt yp =
      if cs = [] then 0
      else (cs.map (fun c => f1ForClass c yt yp)).sum /
        (cs.length : Rat) := by
  simp only [macroF1]
  rw [hcs]

/-- Per-class F1 is non-negative. -/
theorem f1ForClass_nonneg (c : Label) (yt yp : List Label) :
    0 ≤ f1ForClass c yt yp := by
  simp only [f1ForClass]
  split
  · exact le_refl 0
  · apply div_nonneg <;> positivity

/-- Per-class F1 is at most one. -/
theorem f1ForClass_le_one (c : Label) (yt yp : List Label) :
    f1ForClass c yt yp ≤ 1 := by
  simp only [f1ForClass]
  split
  · norm_num
  · rename_i h
    rw [div_le_one (by exact_mod_cast Nat.pos_of_ne_zero h)]
    push_cast
    linarith [Nat.cast_nonneg (α := Rat)
      (List.countP (fun p => p.2 == c && !(p.1 == c)) (yt.zip yp)),
      Nat.cast_nonneg (α := Rat)
      (List.countP (fun p => p.1 == c && !(p.2 == c)) (yt.zip yp))]

/-- Macro F1 is non-negative. -/
theorem macroF1_nonneg (yt yp : List Label) :
    0 ≤ macroF1 yt yp := by
  simp only [macroF1]
  split
  · exact le_refl 0
  · apply div_nonneg
    · apply List.sum_nonneg
      intro x hx
      obtain ⟨c, -, rfl⟩ := List.mem_map.mp hx
      exact f1ForClass_nonneg c yt yp
    · positivity

/-- Macro F1 is at most one. -/
theorem macroF1_le_one (yt yp : List Label) :
    macroF1 yt yp ≤ 1 := by
  simp only [macroF1]
  split
  · norm_num
  · rename_i h
    have hlen : (0 : Rat) < ((yt ++ yp).dedup.length : Rat) := by
      exact_mod_cast List.length_pos.mpr h
    rw [div_le_one hlen]
    have hb := List.sum_le_card_nsmul
      ((yt ++ yp).dedup.map fun c => f1ForClass c yt yp) 1
      (by
        intro x hx
        obtain ⟨c, -, rfl⟩ := List.mem_map.mp hx
        exact f1ForClass_le_one c yt yp)
    simpa [List.length_map, nsmul_eq_mul] using hb

/-- With pairwise-distinct column names, name lookup finds the column
itself. -/
theorem find?_fst_eq_of_nodup (y : YTable)
    (hnd : (y.map Prod.fst).Nodup) (p : String × List Label)
    (hp : p ∈ y) : y.find? (fun q => q.1 == p.1) = some p := by
  induction y with
  | nil => cases hp
  | cons q rest ih =>
    simp only [List.map_cons, List.nodup_cons] at hnd
    obtain ⟨hq, hrest⟩ := hnd
    rcases List.mem_cons.mp hp with rfl | hmem
    · exact List.find?_cons_of_pos _ (by simp)
    · have hne : (q.1 == p.1) = false := by
        rw [beq_eq_false_iff_ne]
        intro he
        exact (he ▸ hq) (List.mem_map_of_mem Prod.fst hmem)
      simp only [List.find?_cons, hne]
      exact ih hrest hmem

/-- With pairwise-distinct column names, `y[label]` for a column of `y` is
that column's values. -/
theorem colByName_eq_of_nodup (y : YTable)
    (hnd : (y.map Prod.fst).Nodup) (p : String × List Label)
    (hp : p ∈ y) : colByName y p.1 = p.2 := by
  unfold colByName
  rw [find?_fst_eq_of_nodup y hnd p hp]

/-- The first scenario column has macro F1 exactly 0.80. -/
theorem scenario_colA_f1 :
    macroF1 [0, 0, 0, 1, 1, 0, 0, 0, 1, 1]
      [0, 0, 1, 1, 1, 0, 0, 1, 1, 1] = 4 / 5 := by
  rw [macroF1_eval _ _ [0, 1] (by decide),
    if_neg (by decide : ¬([0, 1] : List Label) = [])]
  simp only [List.map_cons, List.map_nil, List.sum_cons, List.sum_nil]
  rw [f1ForClass_eval 0 _ _ 4 0 2 (by decide) (by decide) (by decide),
    f1ForClass_eval 1 _ _ 4 2 0 (by decide) (by decide) (by decide)]
  norm_num

/-- The second scenario column has macro F1 exactly 0.60. -/
theorem scenario_colB_f1 :
    macroF1 [0, 0, 0, 0, 0, 1, 1, 1, 1, 1]
      [0, 0, 0, 1, 1, 0, 0, 1, 1, 1] = 3 / 5 := by
  rw [macroF1_eval _ _ [0, 1] (by decide),
    if_neg (by decide : ¬([0, 1] : List Label) = [])]
  simp only [List.map_cons, List.map_nil, List.sum_cons, List.sum_nil]
  rw [f1ForClass_eval 0 _ _ 3 2 2 (by decide) (by decide) (by decide),
    f1ForClass_eval 1 _ _ 3 2 2 (by decide) (by decide) (by decide)]
  norm_num

/-- The scenario model's per-column scores are 0.80 and 0.60. -/
theorem scenario_scores_eq :
    scenarioMOC.scores () scenarioY = [4 / 5, 3 / 5] := by
  have h : scenarioMOC.scores () scenarioY =
      [macroF1 [0, 0, 0, 1, 1, 0, 0, 0, 1, 1]
        [0, 0, 1, 1, 1, 0, 0, 1, 1, 1],
       macroF1 [0, 0, 0, 0, 0, 1, 1, 1, 1, 1]
        [0, 0, 0, 1, 1, 0, 0, 1, 1, 1]] := rfl
  rw [h, scenario_colA_f1, scenario_colB_f1]

/-- The scenario model's aggregate score is 0.70. -/
theorem scenario_score_eq :
    scenarioMOC.score () scenarioY = 7 / 10 := by
  have h : scenarioMOC.score () scenarioY =
      npMean (scenarioMOC.scores () scenarioY) := rfl
  rw [h, scenario_scores_eq]
  norm_num [npMean, List.sum_cons, List.sum_nil]

/-- C3: `score(X, y)` is the arithmetic mean of `scores(X, y)`; on the
two-column scenario with per-column scores 0.80 and 0.60, `score` returns
0.70. -/
theorem C3_score_is_arithmetic_mean :
    (∀ (X : Type) (m : FittedMOC X) (x : X) (y : YTable),
        m.score x y = arithmeticMean (m.scores x y)) ∧
    scenarioMOC.scores () scenarioY = [4 / 5, 3 / 5] ∧
    scenarioMOC.score () scenarioY = 7 / 10 :=
  ⟨fun _ _ _ _ => rfl, scenario_scores_eq, scenario_score_eq⟩

/-- C4: `scores(X, y)` has one entry per column of `y`; every entry lies
in [0, 1]; and (for pairwise-distinct column names, as in a well-formed
data frame) the i-th entry is the macro F1 of the i-th target column
against the i-th prediction column. -/
theorem C4_scores_shape_alignment_bounds :
    ∀ (X : Type) (b : FittedBaseline X) (x : X) (y : YTable),
      (b.scores x y).length = y.length ∧
      (∀ v ∈ b.scores x y, 0 ≤ v ∧ v ≤ 1) ∧
      ((y.map Prod.fst).Nodup → ∀ i, i < y.length →
        (b.scores x y)[i]? =
          some (macroF1 ((y.getD i ("", [])).2)
            (predCol (b.final.predict (b.transformX x)) i))) := by
  intro X b x y
  refine ⟨?_, ?_, ?_⟩
  · simp [FittedBaseline.scores, FittedMOC.scores]
  · intro v hv
    simp only [FittedBaseline.scores, FittedMOC.scores,
      List.mem_map] at hv
    obtain ⟨p, hp, rfl⟩ := hv
    exact ⟨macroF1_nonneg _ _, macroF1_le_one _ _⟩
  · intro hnd i hi
    have hyi : y[i]? = some (y.get ⟨i, hi⟩) := by
      rw [List.getElem?_eq_getElem hi]
      rfl
    have hgetD : y.getD i ("", []) = y.get ⟨i, hi⟩ := by
      rw [List.getD_eq_getElem?_getD, hyi]
      rfl
    simp only [FittedBaseline.scores, FittedMOC.scores]
    rw [List.getElem?_map, List.getElem?_enum, List.getElem?_map, hyi]
    simp only [Option.map_some']
    rw [colByName_eq_of_nodup y hnd _ (List.get_mem y i hi), hgetD]

/-- C4 witness: the shape statements evaluated on the small fitted
pipeline and target table. -/
theorem C4_scores_shape_alignment_bounds_witness :
    (exampleFB.scores () exampleY).length = exampleY.length ∧
    (∀ v ∈ exampleFB.scores () exampleY, 0 ≤ v ∧ v ≤ 1) ∧
    (exampleFB.scores () exampleY)[0]? =
      some (macroF1 ((exampleY.getD 0 ("", [])).2)
        (predCol (exampleFB.final.predict (exampleFB.transformX ()))
          0)) := by
  obtain ⟨h1, h2, h3⟩ :=
    C4_scores_shape_alignment_bounds Unit exampleFB () exampleY
  exact ⟨h1, h2, h3 (by decide) 0 (by decide)⟩

/-! ## Data-frame lemmas -/

/-- Setting a column never touches the row index. -/
theorem setCol_index (df : DataFrame) (n : String) (v : List String) :
    (setCol df n v).index = df.index := by
  simp only [setCol]
  split <;> rfl

/-- Column replacement preserves column names, so name search commutes
with it. -/
theorem fst_beq_comp (n m : String) (v : List String) :
    ((fun p : String × List String => p.1 == n) ∘
      (fun p : String × List String =>
        if p.1 == m then (p.1, v) else p)) =
      (fun p : String × List String => p.1 == n) := by
  funext p
  by_cases h : (p.1 == m) = true <;> simp [Function.comp, h]

/-- After `df[n] = v`, reading column `n` gives `v`. -/
theorem getCol_setCol_same (df : DataFrame) (n : String)
    (v : List String) : getCol (setCol df n v) n = some v := by
  simp only [setCol]
  split
  · rename_i hany
    simp only [getCol]
    rw [List.find?_map _ df.cols, fst_beq_comp n n v]
    obtain ⟨q, hq⟩ := Option.isSome_iff_exists.mp
      (List.find?_isSome.mpr (List.any_eq_true.mp hany))
    rw [hq]
    have hqn : q.1 = n := by simpa using List.find?_some hq
    simp [hqn]
  · rename_i hany
    simp only [getCol]
    have hnone : df.cols.find? (fun p => p.1 == n) = none :=
      List.find?_eq_none.mpr (by
        intro x hx hpx
        exact hany (List.any_eq_true.mpr ⟨x, hx, hpx⟩))
    rw [List.find?_append, hnone]
    simp [List.find?_cons]

/-- After `df[m] = v` with `m ≠ n`, reading column `n` is unchanged. -/
theorem getCol_setCol_other (df : DataFrame) (m n : String)
    (v : List String) (hmn : m ≠ n) :
    getCol (setCol df m v) n = getCol df n := by
  simp only [setCol]
  split
  · simp only [getCol]
    rw [List.find?_map _ df.cols, fst_beq_comp n m v]
    cases hq : df.cols.find? (fun p => p.1 == n) with
    | none => rfl
    | some q =>
      have hqn : q.1 = n := by simpa using List.find?_some hq
      have hqm : (q.1 == m) = false := by
        rw [beq_eq_false_iff_ne, hqn]
        exact fun he => hmn he.symm
      simp [hqm, hqn, Ne.symm hmn]
  · simp only [getCol]
    rw [List.find?_append]
    have h1 : List.find? (fun p => p.1 == n) [(m, v)] = none := by
      simp [List.find?_cons,
        show (m == n) = false from beq_eq_false_iff_ne.mpr hmn]
    rw [h1]
    cases df.cols.find? (fun p => p.1 == n) <;> rfl

/-- A fold of column assignments never touches the row index. -/
theorem foldl_setCol_index (g : Nat × String → List String)
    (l : List (Nat × String)) :
    ∀ df : DataFrame,
      (l.foldl (fun acc p => setCol acc p.2 (g p)) df).index =
        df.index := by
  induction l with
  | nil => intro df; rfl
  | cons a rest ih =>
    intro df
    rw [List.foldl_cons, ih, setCol_index]

/-- A fold of column assignments to non-`content` columns leaves the
`content` column unchanged. -/
theorem foldl_setCol_content (g : Nat × String → List String)
    (l : List (Nat × String)) :
    ∀ df : DataFrame, (∀ p ∈ l, p.2 ≠ "content") →
      getCol (l.foldl (fun acc p => setCol acc p.2 (g p)) df)
        "content" = getCol df "content" := by
  induction l with
  | nil => intro df _; rfl
  | cons a rest ih =>
    intro df hl
    rw [List.foldl_cons,
      ih _ (fun p hp => hl p (List.mem_cons_of_mem a hp))]
    exact getCol_setCol_other df a.2 "content" (g a)
      (hl a (List.mem_cons_self a rest))

/-- C6: `predict_df` without persistence returns a table with the same
row index (hence the same row count and row order) as the input, whose
content column is blanked (one empty string per row); and the returned
table is the same whether or not a save destination is given. -/
theorem C6_predict_df_roundtrip :
    ∀ (predict : DataFrame → List (List String))
      (labels : List String) (df : DataFrame) (saveTo : Option String),
      (predict_df predict labels df saveTo).1.index = df.index ∧
      ("content" ∉ labels →
        getCol (predict_df predict labels df saveTo).1 "content" =
          some (List.replicate df.index.length "")) ∧
      (predict_df predict labels df saveTo).1 =
        (predict_df predict labels df none).1 := by
  intro predict labels df saveTo
  refine ⟨?_, ?_, rfl⟩
  · show (labels.enum.foldl
      (fun acc p => setCol acc p.2
        ((predict df).map (fun row => row.getD p.1 "")))
      (setCol df "content"
        (List.replicate df.index.length ""))).index = df.index
    rw [foldl_setCol_index, setCol_index]
  · intro hcont
    have hl : ∀ p ∈ labels.enum, p.2 ≠ "content" := by
      intro p hp hpc
      obtain ⟨i, a⟩ := p
      have hg := List.mem_enum_iff_getElem?.mp hp
      exact hcont (hpc ▸ List.getElem?_mem hg)
    show getCol (labels.enum.foldl
      (fun acc p => setCol acc p.2
        ((predict df).map (fun row => row.getD p.1 "")))
      (setCol df "content"
        (List.replicate df.index.length ""))) "content" =
      some (List.replicate df.index.length "")
    rw [foldl_setCol_content _ _ _ hl, getCol_setCol_same]

/-- C6 witness: the round-trip statement evaluated on the small data
frame. -/
theorem C6_predict_df_roundtrip_witness :
    (predict_df (fun _ => [["p"], ["q"], ["r"]]) ["label"] exampleDF
      none).1.index = exampleDF.index ∧
    getCol (predict_df (fun _ => [["p"], ["q"], ["r"]]) ["label"]
      exampleDF none).1 "content" =
      some (List.replicate exampleDF.index.length "") := by
  obtain ⟨h1, h2, -⟩ := C6_predict_df_roundtrip
    (fun _ => [["p"], ["q"], ["r"]]) ["label"] exampleDF none
  exact ⟨h1, h2 (by decide)⟩

end Fgclassifier
